import Mathlib

/-!
Verification development for the AI-meeting-summarizer front end.

The TypeScript sources are shallowly embedded: React `useState` cells
become fields of explicit state records, event handlers become
state-transition functions, and the asynchronous calls to the AI Gateway
are parameterised by an explicit outcome (resolved value or thrown
error), since the gateway itself is an external collaborator.
Definitions come first, then the theorems about them.
-/

namespace MeetingSummarizer

/-! Data model from types.ts. -/

/-- `Priority = 'High' | 'Medium' | 'Low'` from types.ts. -/
inductive Priority where
  | high
  | medium
  | low
deriving DecidableEq, Repr

/-- `ActionItem` from types.ts. -/
structure ActionItem where
  task : String
  assignee : String
  priority : Priority
  dueDate : String
deriving DecidableEq, Repr

/-- `DiscussionPoint` from types.ts. -/
structure DiscussionPoint where
  speaker : String
  points : List String
deriving DecidableEq, Repr

/-- `SummaryResult` from types.ts. -/
structure SummaryResult where
  title : String
  shortSummary : String
  detailedSummary : List String
  actionItems : List ActionItem
  discussionBreakdown : List DiscussionPoint
deriving DecidableEq, Repr

/-! JavaScript string trimming: `handleSummarize` guards on
`!transcript.trim()`; `String.prototype.trim` removes the ECMAScript
whitespace and line-terminator characters from both ends. -/

/-- The ECMAScript whitespace and line-terminator characters removed by
`String.prototype.trim`. -/
def jsWhitespaceChars : List Char :=
  [' ', '\t', '\n', '\r', '\x0b', '\x0c', ' ', ' ',
   ' ', ' ', ' ', ' ', ' ', ' ', ' ',
   ' ', ' ', ' ', ' ',
   ' ', ' ', ' ', ' ', '　', '﻿']

/-- Whether a character is removed by JavaScript `trim()`. -/
def isJsWhitespace (c : Char) : Bool := jsWhitespaceChars.contains c

/-- JavaScript `String.prototype.trim`: drop whitespace from both ends. -/
def jsTrim (s : String) : String :=
  ⟨((s.data.dropWhile isJsWhitespace).reverse.dropWhile isJsWhitespace).reverse⟩

/-! Application state machine (App.tsx). -/

/-- The `useState` cells of the `App` component (App.tsx lines 15-21).
The `activeInputTab` cell is omitted: none of the transitions modelled
here read or write it. -/
structure AppState where
  transcript : String
  summaryResult : Option SummaryResult
  isLoading : Bool
  error : Option String
  fileName : String
  meetingTitle : String
deriving DecidableEq, Repr

/-- The error message set by `handleSummarize` for a blank transcript. -/
def emptyTranscriptMessage : String :=
  "Transcript is empty. Please upload, paste, or transcribe audio first."

/-- Outcome of the awaited `summarizeTranscript` call, as observed by
`handleSummarize`: either a resolved `SummaryResult` or a thrown error
whose message is shown to the user. -/
inductive SummarizeOutcome where
  | success (r : SummaryResult)
  | failure (message : String)
deriving DecidableEq, Repr

/-- `handleSummarize` (App.tsx lines 38-56) as a state transition.  The
returned `Bool` records whether the AI Gateway's `summarizeTranscript`
operation was invoked.  The early return on a blank transcript happens
before `setIsLoading(true)`; otherwise the handler clears `error` and
`summaryResult`, awaits the gateway (outcome supplied as `outcome`), then
either stores the result or stores the error message, and finally resets
`isLoading`. -/
def handleSummarize (s : AppState) (outcome : SummarizeOutcome) :
    AppState × Bool :=
  if jsTrim s.transcript = "" then
    ({ s with error := some emptyTranscriptMessage }, false)
  else
    let s1 := { s with isLoading := true, error := none, summaryResult := none }
    match outcome with
    | .success r =>
        ({ s1 with summaryResult := some r, isLoading := false }, true)
    | .failure m =>
        ({ s1 with error := some m, isLoading := false }, true)

/-- A concrete complete summary result, used as the prior result in the
counterexample to claim C1. -/
def priorResult : SummaryResult :=
  { title := "T", shortSummary := "S", detailedSummary := [],
    actionItems := [], discussionBreakdown := [] }

/-- A concrete application state holding `priorResult` and a non-blank
transcript. -/
def priorState : AppState :=
  { transcript := "hello", summaryResult := some priorResult,
    isLoading := false, error := none, fileName := "", meetingTitle := "" }

/-! File upload (FileUpload.tsx and the `handleFileUpload` callback in
App.tsx). -/

/-- The pieces of a browser `File` object that `handleFile` inspects,
together with the text content the `FileReader` would produce. -/
structure UploadedFile where
  ftype : String
  name : String
  content : String
deriving DecidableEq, Repr

/-- JavaScript `String.prototype.endsWith`, modelled on character lists. -/
def strEndsWith (s suffix : String) : Bool :=
  List.isSuffixOf suffix.data s.data

/-- The acceptance test of `handleFile` (FileUpload.tsx line 13):
`file.type === 'text/plain' || file.name.endsWith('.vtt')`.  (The
additional `file &&` truthiness guard always holds for an actual file.) -/
def isSupportedTextFile (f : UploadedFile) : Bool :=
  f.ftype = "text/plain" || strEndsWith f.name ".vtt"

/-- `handleFile` (FileUpload.tsx lines 12-23) composed with the
`onFileUpload` callback `handleFileUpload` (App.tsx lines 23-28).
On an accepted file the transcript and file name are set and the previous
result and error are cleared; on a rejected file only an alert is shown and
the state is untouched.  The `Bool` records acceptance. -/
def handleFileUploadApp (f : UploadedFile) (s : AppState) : AppState × Bool :=
  if isSupportedTextFile f then
    ({ s with transcript := f.content, fileName := f.name,
              summaryResult := none, error := none }, true)
  else
    (s, false)

/-! Playback state machine (`handleToggleAudio` in ResultDisplay). -/

/-- The three playback states of the `audioState` cell. -/
inductive AudioState where
  | idle
  | loading
  | playing
deriving DecidableEq, Repr

/-- The playback-relevant `useState`/`useRef` cells of `ResultDisplay`:
`audioState`, whether `audioSourceRef.current` is non-null, and the
`ttsError` message cell. -/
structure PlaybackState where
  audioState : AudioState
  hasSource : Bool
  ttsError : Option String
deriving DecidableEq, Repr

/-- The synchronous prefix of `handleToggleAudio` (the code up to and
including `setTtsError(null)` before the first `await`):
Case 1 — `playing` with a live source: stop playback, drop the source,
return to `idle`.  Case 2 — `loading`: return immediately, doing nothing.
Case 3 — otherwise: enter `loading`, clear the error, and start the
synthesis request.  The returned `Bool` records whether `generateSpeech`
is invoked. -/
def toggleSync (s : PlaybackState) : PlaybackState × Bool :=
  if s.audioState = .playing ∧ s.hasSource = true then
    ({ s with audioState := .idle, hasSource := false }, false)
  else if s.audioState = .loading then
    (s, false)
  else
    ({ s with audioState := .loading, ttsError := none }, true)

/-- Outcome of the awaited body of `handleToggleAudio` (speech synthesis,
base64 decode, PCM decode, buffer construction): either it all succeeds or
some step throws with a message. -/
inductive SynthOutcome where
  | ok
  | err (message : String)
deriving DecidableEq, Repr

/-- The resolution of `handleToggleAudio`'s awaited body from the
`loading` state: on success the decoded source is stored and playback
starts (`playing`); on any thrown error the catch block records the
message and returns to `idle`. -/
def toggleResolve (s : PlaybackState) : SynthOutcome → PlaybackState
  | .ok => { s with audioState := .playing, hasSource := true }
  | .err m => { s with audioState := .idle, ttsError := some m }

/-! Action-item filtering (`filteredActionItems` in ResultDisplay). -/

/-- The `activeFilter` state of `ResultDisplay`: a priority or `All`. -/
inductive PriorityFilter where
  | all
  | only (p : Priority)
deriving DecidableEq, Repr

/-- `filteredActionItems` (ResultDisplay lines 266-271): for `'All'` the
original `result.actionItems` list; otherwise
`result.actionItems.filter(item => item.priority === activeFilter)`,
always computed from the full unfiltered list. -/
def filteredActionItems (items : List ActionItem) :
    PriorityFilter → List ActionItem
  | .all => items
  | .only p => items.filter (fun item => item.priority = p)

/-! Audio decode (`decodeAudioData` in ResultDisplay, lines 236-253).

A `Uint8Array` element is a byte, modelled as `Fin 256`.  The source view
`new Int16Array(data.buffer)` reinterprets consecutive little-endian byte
pairs as signed 16-bit integers, and throws a `RangeError` when the byte
length is odd; the embedding returns `none` in that case.  Samples are
written as `dataInt16[i * numChannels + channel] / 32768.0`; since
`frameCount = dataInt16.length / numChannels` (truncating), every read is
in bounds, so the embedding's out-of-bounds default `0` is never
consulted.  Division of a 16-bit integer by the power of two `32768` is
exact in IEEE binary floating point, so samples are modelled in `ℚ`. -/

/-- Reinterpret a little-endian byte pair as a signed 16-bit integer. -/
def toInt16 (lo hi : Fin 256) : Int :=
  if lo.val + 256 * hi.val < 32768 then ((lo.val + 256 * hi.val : Nat) : Int)
  else ((lo.val + 256 * hi.val : Nat) : Int) - 65536

/-- The `Int16Array` view of a byte buffer: `none` when the byte length is
odd (the constructor throws), otherwise the list of 16-bit samples. -/
def bytesToInt16 : List (Fin 256) → Option (List Int)
  | [] => some []
  | [_] => none
  | lo :: hi :: rest => (bytesToInt16 rest).map (fun l => toInt16 lo hi :: l)

/-- `decodeAudioData`: one list of floating samples per channel, each
sample a 16-bit value divided by `32768.0`. -/
def decodeAudioData (data : List (Fin 256)) (numChannels : Nat) :
    Option (List (List ℚ)) :=
  (bytesToInt16 data).map fun dataInt16 =>
    let frameCount := dataInt16.length / numChannels
    (List.range numChannels).map fun channel =>
      (List.range frameCount).map fun i =>
        ((dataInt16.getD (i * numChannels + channel) 0 : Int) : ℚ) / 32768

/-! AI Gateway response handling (`summarizeTranscript` in
geminiService.ts).  The model call and `JSON.parse` are the external
boundary; everything after the parse is embedded exactly: the TypeScript
cast performs no validation, so the code operates on raw JSON values. -/

/-- A parsed JSON value, as produced by `JSON.parse` in
`summarizeTranscript` (geminiService.ts line 107).  Object fields are kept
in insertion order, as JavaScript does. -/
inductive Jv where
  | null
  | bool (b : Bool)
  | num (n : Int)
  | str (s : String)
  | arr (elems : List Jv)
  | obj (fields : List (String × Jv))

/-- JavaScript truthiness of a JSON value: `null`, `false`, `0` and the
empty string are falsy; arrays and objects are always truthy. -/
def jsTruthy : Jv → Bool
  | .null => false
  | .bool b => b
  | .num n => n != 0
  | .str s => s != ""
  | .arr _ => true
  | .obj _ => true

/-- Truthiness of a possibly-absent property: a missing property reads as
`undefined`, which is falsy. -/
def truthyOpt : Option Jv → Bool
  | none => false
  | some v => jsTruthy v

/-- Property read on a JavaScript object: the value at the first matching
key, or `none` for `undefined` when the key is absent. -/
def getField : List (String × Jv) → String → Option Jv
  | [], _ => none
  | (k, v) :: rest, key => if k = key then some v else getField rest key

/-- Property write on a JavaScript object: replaces the value at an
existing key in place, or appends a new key in insertion order. -/
def setField : List (String × Jv) → String → Jv → List (String × Jv)
  | [], key, val => [(key, val)]
  | (k, v) :: rest, key, val =>
      if k = key then (k, val) :: rest else (k, v) :: setField rest key val

/-- The statement `if (!item.priority) item.priority = 'Medium'`
(geminiService.ts line 112): a falsy or absent priority is replaced. -/
def fillPriority (fields : List (String × Jv)) : List (String × Jv) :=
  if truthyOpt (getField fields "priority") then fields
  else setField fields "priority" (Jv.str "Medium")

/-- The statement `if (item.dueDate === undefined) item.dueDate = ''`
(geminiService.ts line 113): only an absent due date is replaced; `null`
or any present value is kept. -/
def fillDueDate (fields : List (String × Jv)) : List (String × Jv) :=
  if (getField fields "dueDate").isSome then fields
  else setField fields "dueDate" (Jv.str "")

/-- The body of the `forEach` over `result.actionItems` (geminiService.ts
lines 111-114) for one item.  For a non-object item the strict-mode
property assignment throws a `TypeError` (modelled as `.error ()`), which
the surrounding catch converts to the summarization error.  (A JSON array
item would accept expando properties in JavaScript; the embedding treats
it like the other non-objects, a corner no claim depends on.) -/
def processItem : Jv → Except Unit Jv
  | .obj fields => .ok (.obj (fillDueDate (fillPriority fields)))
  | _ => .error ()

/-- The `forEach` loop itself: the first throwing item aborts the whole
call, as the exception propagates to the catch block. -/
def processItems : List Jv → Except Unit (List Jv)
  | [] => .ok []
  | it :: rest =>
      match processItem it with
      | .error e => .error e
      | .ok j =>
          match processItems rest with
          | .error e => .error e
          | .ok js => .ok (j :: js)

/-- The guarded block `if (result.actionItems) - ... .forEach(...)`
(geminiService.ts lines 110-115).  A falsy `actionItems` skips the block;
a truthy non-array has no callable `forEach`, so the call throws. -/
def processActionItemsField (fields : List (String × Jv)) :
    Except Unit (List (String × Jv)) :=
  match getField fields "actionItems" with
  | some (Jv.arr items) =>
      (processItems items).map fun items2 =>
        setField fields "actionItems" (Jv.arr items2)
  | some w => if jsTruthy w then .error () else .ok fields
  | none => .ok fields

/-- The statement `if (!result.discussionBreakdown)
result.discussionBreakdown = []` (geminiService.ts lines 116-118). -/
def fillDiscussionBreakdown (fields : List (String × Jv)) :
    List (String × Jv) :=
  if truthyOpt (getField fields "discussionBreakdown") then fields
  else setField fields "discussionBreakdown" (Jv.arr [])

/-- The whole post-parse processing of `summarizeTranscript`: the
unchecked cast `JSON.parse(jsonText) as SummaryResult` performs no
validation, so the parsed value flows through unchanged apart from the
default fills.  Property access on a non-object primitive or `null`
throws, hence `.error` for those. -/
def processResult : Jv → Except Unit Jv
  | .obj fields =>
      (processActionItemsField fields).map fun f =>
        .obj (fillDiscussionBreakdown f)
  | _ => .error ()

/-- The message of the error thrown by the catch block of
`summarizeTranscript` (geminiService.ts line 124). -/
def summarizeFailureMessage : String :=
  "Failed to get summary from AI. Please check the transcript and try again."

/-- What the awaited model call plus `JSON.parse` produce, as observed by
the rest of `summarizeTranscript`: `failure` covers a network error of
`generateContent` and malformed JSON (a `JSON.parse` throw); `parsed`
carries the successfully parsed value. -/
inductive ModelResponse where
  | failure
  | parsed (v : Jv)

/-- `summarizeTranscript` (geminiService.ts lines 78-126) after the model
responds: any exception in the try block is converted to a single
summarization error; otherwise the processed value is returned. -/
def summarizeTranscript : ModelResponse → Except String Jv
  | .failure => .error summarizeFailureMessage
  | .parsed v =>
      match processResult v with
      | .ok r => .ok r
      | .error _ => .error summarizeFailureMessage

/-- Whether a JSON value is a string. -/
def isJString : Jv → Bool
  | .str _ => true
  | _ => false

/-- Whether a JSON value is an array of strings. -/
def isJStringArray : Jv → Bool
  | .arr xs => xs.all isJString
  | _ => false

/-- Whether an object has a field of the given key whose value satisfies
a predicate. -/
def fieldIs (fields : List (String × Jv)) (key : String) (p : Jv → Bool) : Bool :=
  match getField fields key with
  | some v => p v
  | none => false

/-- One action item as demanded by `responseSchema` (geminiService.ts
lines 30-51): required string fields task, assignee, priority, dueDate. -/
def actionItemSchemaOk : Jv → Bool
  | .obj f => fieldIs f "task" isJString && fieldIs f "assignee" isJString &&
      fieldIs f "priority" isJString && fieldIs f "dueDate" isJString
  | _ => false

/-- One discussion point as demanded by `responseSchema` (geminiService.ts
lines 56-70): required speaker string and points string array. -/
def discussionPointSchemaOk : Jv → Bool
  | .obj f => fieldIs f "speaker" isJString && fieldIs f "points" isJStringArray
  | _ => false

/-- Whether a JSON value is an array all of whose elements satisfy a
predicate. -/
def isArrAll (p : Jv → Bool) : Jv → Bool
  | .arr xs => xs.all p
  | _ => false

/-- Whether a parsed response satisfies the `responseSchema` declared in
geminiService.ts (lines 12-75): all five required top-level fields with
their declared types.  The client code never evaluates this check. -/
def schemaComplete : Jv → Bool
  | .obj f =>
      fieldIs f "title" isJString && fieldIs f "shortSummary" isJString &&
      fieldIs f "detailedSummary" isJStringArray &&
      fieldIs f "actionItems" (isArrAll actionItemSchemaOk) &&
      fieldIs f "discussionBreakdown" (isArrAll discussionPointSchemaOk)
  | _ => false

/-- The per-item outcome of the default fills: a truthy (hence, for a
string, non-empty) priority and a present dueDate property. -/
def itemFilled : Jv → Bool
  | .obj f => truthyOpt (getField f "priority") && (getField f "dueDate").isSome
  | _ => false

/-- The `actionItems` array of a result object, when it is an array. -/
def actionItemsOf : Jv → Option (List Jv)
  | .obj f =>
      match getField f "actionItems" with
      | some (Jv.arr items) => some items
      | _ => none
  | _ => none

/-- What the default fills guarantee about a returned result: a truthy
`discussionBreakdown` and, when `actionItems` is an array, every item
filled.  Nothing else about the shape is guaranteed. -/
def defaultsFilled : Jv → Bool
  | .obj f =>
      truthyOpt (getField f "discussionBreakdown") &&
      (match getField f "actionItems" with
       | some (Jv.arr items) => items.all itemFilled
       | _ => true)
  | _ => false

/-- The dueDate property of an action-item object. -/
def itemDueDate : Jv → Option Jv
  | .obj f => getField f "dueDate"
  | _ => none

/-- A schema-conforming action item whose due date string is `soon`,
which is not in YYYY-MM-DD form. -/
def vBadItem : Jv :=
  Jv.obj [("task", Jv.str "write report"),
          ("assignee", Jv.str "John"),
          ("priority", Jv.str "High"),
          ("dueDate", Jv.str "soon")]

/-- A schema-complete model response whose action item carries the due
date string `soon`, which is not in YYYY-MM-DD form. -/
def vBadDueDate : Jv :=
  Jv.obj [("title", Jv.str "Weekly sync"),
          ("shortSummary", Jv.str "s"),
          ("detailedSummary", Jv.arr [Jv.str "p"]),
          ("actionItems", Jv.arr [vBadItem]),
          ("discussionBreakdown", Jv.arr
            [Jv.obj [("speaker", Jv.str "A"),
                     ("points", Jv.arr [Jv.str "q"])]])]

/-! Date formatting (`formatDate` in ResultDisplay, lines 209-223) and
its call sites (the rendered due cell, the exported document line, the
notification text).  The expression `new Date("YYYY-MM-DD")` parses as
UTC midnight; the rendering environment is a fixed UTC offset of `tz`
minutes, the one environmental parameter the behaviour depends on. -/

/-- Numeric value of a decimal digit character. -/
def digitVal (c : Char) : Nat := c.toNat - '0'.toNat

/-- Gregorian leap-year rule, as used by the host `Date` parser. -/
def isLeapYear (y : Nat) : Bool :=
  y % 4 = 0 && (y % 100 != 0 || y % 400 = 0)

/-- Days in a month of the proleptic Gregorian calendar. -/
def daysInMonth (y m : Nat) : Nat :=
  if m = 2 then (if isLeapYear y then 29 else 28)
  else if m = 4 ∨ m = 6 ∨ m = 9 ∨ m = 11 then 30
  else 31

/-- Parse of a strict `YYYY-MM-DD` date string, the format the response
schema declares for `dueDate` and the format `new Date(dateString)`
parses as UTC midnight.  Strings in other host-specific date syntaxes are
outside the dueDate contract and are treated as unparseable. -/
def parseYmd (s : String) : Option (Nat × Nat × Nat) :=
  match s.data with
  | [y1, y2, y3, y4, c1, m1, m2, c2, d1, d2] =>
      if y1.isDigit && y2.isDigit && y3.isDigit && y4.isDigit &&
         (c1 == '-') && m1.isDigit && m2.isDigit && (c2 == '-') &&
         d1.isDigit && d2.isDigit then
        let y := ((digitVal y1 * 10 + digitVal y2) * 10 + digitVal y3) * 10 +
          digitVal y4
        let m := digitVal m1 * 10 + digitVal m2
        let d := digitVal d1 * 10 + digitVal d2
        if 1 ≤ m ∧ m ≤ 12 ∧ 1 ≤ d ∧ d ≤ daysInMonth y m then
          some (y, m, d)
        else none
      else none
  | _ => none

/-- Days since 1970-01-01 of a civil date (standard civil-from-days
arithmetic over the proleptic Gregorian calendar). -/
def daysFromCivil (y m d : Nat) : Int :=
  let yy : Int := if m ≤ 2 then (y : Int) - 1 else (y : Int)
  let era : Int := yy / 400
  let yoe : Int := yy - era * 400
  let mp : Int := if m ≤ 2 then (m : Int) + 9 else (m : Int) - 3
  let doy : Int := (153 * mp + 2) / 5 + (d : Int) - 1
  let doe : Int := yoe * 365 + yoe / 4 - yoe / 100 + doy
  era * 146097 + doe - 719468

/-- Civil date of a count of days since 1970-01-01 (inverse direction of
the same arithmetic). -/
def civilFromDays (z : Int) : Int × Nat × Nat :=
  let z2 : Int := z + 719468
  let era : Int := z2 / 146097
  let doe : Int := z2 - era * 146097
  let yoe : Int := (doe - doe / 1460 + doe / 36524 - doe / 146096) / 365
  let y : Int := yoe + era * 400
  let doy : Int := doe - (365 * yoe + yoe / 4 - yoe / 100)
  let mp : Int := (5 * doy + 2) / 153
  let d : Int := doy - (153 * mp + 2) / 5 + 1
  let m : Int := if mp < 10 then mp + 3 else mp - 9
  (if m ≤ 2 then y + 1 else y, m.toNat, d.toNat)

/-- The long month names produced by
`toLocaleDateString('en-US', - month: 'long' ... )`. -/
def monthNames : List String :=
  ["January", "February", "March", "April", "May", "June", "July",
   "August", "September", "October", "November", "December"]

/-- Rendering of a civil date in the en-US long format used by
`formatDate`, e.g. `March 5, 2024`. -/
def renderCivil : Int × Nat × Nat → String
  | (y, m, d) =>
      monthNames.getD (m - 1) "" ++ " " ++ toString d ++ ", " ++ toString y

/-- The successful branch of `formatDate` (ResultDisplay lines 211-219)
for a date parsed as UTC midnight, in an environment whose fixed UTC
offset is `tz` minutes: `date.setDate(date.getDate() + 1)` advances the
instant by exactly one local calendar day (86400 s under a fixed offset),
and `toLocaleDateString` then renders the local calendar day of that
instant, i.e. the floor of (instant + offset) in days. -/
def formatParsedDate (tz : Int) (y m d : Nat) : String :=
  renderCivil (civilFromDays
    (((daysFromCivil y m d + 1) * 86400 + tz * 60) / 86400))

/-- `formatDate` (ResultDisplay lines 209-223): empty string renders as
`N/A`; an unparseable string yields an invalid date, which
`toLocaleDateString` renders as `Invalid Date` (the catch block is dead
code, since neither `new Date` nor formatting throws). -/
def formatDate (tz : Int) (dateString : String) : String :=
  if dateString = "" then "N/A"
  else
    match parseYmd dateString with
    | none => "Invalid Date"
    | some (y, m, d) => formatParsedDate tz y m d

/-- Whether a string is a well-formed `YYYY-MM-DD` date. -/
def wellFormedYmd (s : String) : Bool := (parseYmd s).isSome

/-- The literal text of a priority value. -/
def priorityText : Priority → String
  | .high => "High"
  | .medium => "Medium"
  | .low => "Low"

/-- `createNotificationText` (ResultDisplay lines 374-378): the reminder
text shown in the notification modal, with the due date rendered by
`formatDate`. -/
def createNotificationText (tz : Int) (item : ActionItem) : String :=
  "Reminder: The task \"" ++ item.task ++ "\" is assigned to " ++
  item.assignee ++ ". Priority: " ++ priorityText item.priority ++
  ". Due date: " ++ formatDate tz item.dueDate ++ "."

/-- One action-item checkbox line of the exported markdown document
(`handleDownload`, ResultDisplay lines 289-291), with the due date
rendered by `formatDate`. -/
def downloadActionItemLine (tz : Int) (item : ActionItem) : String :=
  "- [ ] " ++ item.task ++ " (Assignee: " ++ item.assignee ++
  ", Priority: " ++ priorityText item.priority ++ ", Due: " ++
  formatDate tz item.dueDate ++ ")"

/-! Helper lemmas. -/

/-- A string all of whose characters are JS whitespace trims to empty. -/
theorem jsTrim_eq_empty_of_all_whitespace (s : String)
    (h : s.data.all isJsWhitespace) : jsTrim s = "" := by
  have h' : ∀ c ∈ s.data, isJsWhitespace c := by
    intro c hc
    exact List.all_eq_true.mp h c hc
  have h1 : s.data.dropWhile isJsWhitespace = [] :=
    List.dropWhile_eq_nil_iff.mpr h'
  unfold jsTrim
  rw [h1]
  rfl

/-- A signed 16-bit reinterpretation lies in the range -32768 to 32767. -/
theorem toInt16_bounds (lo hi : Fin 256) :
    -32768 ≤ toInt16 lo hi ∧ toInt16 lo hi ≤ 32767 := by
  have hlo := lo.isLt
  have hhi := hi.isLt
  unfold toInt16
  split <;> constructor <;> omega

/-- Every sample produced by the `Int16Array` view lies in
`[-32768, 32767]`. -/
theorem bytesToInt16_bounds :
    ∀ (data : List (Fin 256)) (l : List Int),
      bytesToInt16 data = some l → ∀ v ∈ l, -32768 ≤ v ∧ v ≤ 32767 := by
  intro data
  induction data using bytesToInt16.induct with
  | case1 =>
      intro l h v hv
      simp only [bytesToInt16, Option.some.injEq] at h
      subst h
      cases hv
  | case2 b =>
      intro l h
      simp [bytesToInt16] at h
  | case3 lo hi rest ih =>
      intro l h v hv
      simp only [bytesToInt16, Option.map_eq_some'] at h
      obtain ⟨l', hl', rfl⟩ := h
      rcases List.mem_cons.mp hv with rfl | hv'
      · exact toInt16_bounds lo hi
      · exact ih l' hl' v hv'

/-- `List.getD` preserves a property shared by the list elements and the
default. -/
theorem getD_property {α : Type} (P : α → Prop) (l : List α) (d : α)
    (hl : ∀ v ∈ l, P v) (hd : P d) (n : Nat) : P (l.getD n d) := by
  induction l generalizing n with
  | nil =>
      simpa [List.getD] using hd
  | cons a t ih =>
      cases n with
      | zero =>
          rw [List.getD_cons_zero]
          exact hl a (by simp)
      | succ m =>
          rw [List.getD_cons_succ]
          exact ih (fun v hv => hl v (by simp [hv])) m

/-- Reading a just-written property returns the written value. -/
theorem getField_setField_self (fields : List (String × Jv)) (key : String)
    (val : Jv) : getField (setField fields key val) key = some val := by
  induction fields with
  | nil => simp [setField, getField]
  | cons kv rest ih =>
      obtain ⟨k, v⟩ := kv
      by_cases h : k = key
      · simp [setField, h, getField]
      · simp [setField, h, getField, ih]

/-- Writing one property leaves the others unchanged. -/
theorem getField_setField_ne (fields : List (String × Jv)) (key key' : String)
    (val : Jv) (h : key ≠ key') :
    getField (setField fields key val) key' = getField fields key' := by
  induction fields with
  | nil => simp [setField, getField, h]
  | cons kv rest ih =>
      obtain ⟨k, v⟩ := kv
      by_cases hk : k = key
      · subst hk
        simp [setField, getField, h]
      · simp [setField, hk, getField, ih]

/-- After the priority fill, the priority property is present and truthy. -/
theorem fillPriority_truthy (fields : List (String × Jv)) :
    truthyOpt (getField (fillPriority fields) "priority") = true := by
  unfold fillPriority
  by_cases hc : truthyOpt (getField fields "priority") = true
  · rw [if_pos hc]
    exact hc
  · rw [if_neg hc, getField_setField_self]
    rfl

/-- After the dueDate fill, the dueDate property is present. -/
theorem fillDueDate_some (fields : List (String × Jv)) :
    (getField (fillDueDate fields) "dueDate").isSome = true := by
  unfold fillDueDate
  by_cases hc : (getField fields "dueDate").isSome = true
  · rw [if_pos hc]
    exact hc
  · rw [if_neg hc, getField_setField_self]
    rfl

/-- The dueDate fill touches no other property. -/
theorem fillDueDate_pres (fields : List (String × Jv)) (key : String)
    (h : "dueDate" ≠ key) :
    getField (fillDueDate fields) key = getField fields key := by
  unfold fillDueDate
  by_cases hc : (getField fields "dueDate").isSome = true
  · rw [if_pos hc]
  · rw [if_neg hc, getField_setField_ne _ _ _ _ h]

/-- Any item that survives the per-item fills ends with a truthy priority
and a present dueDate. -/
theorem processItem_filled (it j : Jv) (h : processItem it = .ok j) :
    itemFilled j = true := by
  cases it with
  | obj fields =>
      simp only [processItem, Except.ok.injEq] at h
      subst h
      simp only [itemFilled, Bool.and_eq_true]
      constructor
      · rw [fillDueDate_pres _ _ (by decide)]
        exact fillPriority_truthy fields
      · exact fillDueDate_some (fillPriority fields)
  | null => simp [processItem] at h
  | bool b => simp [processItem] at h
  | num n => simp [processItem] at h
  | str s => simp [processItem] at h
  | arr xs => simp [processItem] at h

/-- Every element of the processed item list comes from processing some
element of the input list. -/
theorem processItems_mem (l l' : List Jv) (h : processItems l = .ok l') :
    ∀ j ∈ l', ∃ it ∈ l, processItem it = .ok j := by
  induction l generalizing l' with
  | nil =>
      simp only [processItems, Except.ok.injEq] at h
      subst h
      intro j hj
      cases hj
  | cons it rest ih =>
      simp only [processItems] at h
      cases hit : processItem it with
      | error e => rw [hit] at h; cases h
      | ok j0 =>
          rw [hit] at h
          cases hrest : processItems rest with
          | error e => rw [hrest] at h; cases h
          | ok js =>
              rw [hrest] at h
              simp only [Except.ok.injEq] at h
              subst h
              intro j hj
              rcases List.mem_cons.mp hj with rfl | hj'
              · exact ⟨it, List.mem_cons_self it rest, hit⟩
              · obtain ⟨it', hit', hok⟩ := ih js hrest j hj'
                exact ⟨it', List.mem_cons_of_mem _ hit', hok⟩

/-- When the actionItems block succeeds and the resulting field holds an
array, every element of that array is filled. -/
theorem processActionItemsField_filled (fields f : List (String × Jv))
    (h : processActionItemsField fields = .ok f) :
    ∀ items, getField f "actionItems" = some (Jv.arr items) →
      ∀ item ∈ items, itemFilled item = true := by
  intro items hitems item hitem
  unfold processActionItemsField at h
  split at h
  · rename_i items0 heq
    cases hpi : processItems items0 with
    | error e =>
        rw [hpi] at h
        simp [Except.map] at h
    | ok items2 =>
        rw [hpi] at h
        simp only [Except.map, Except.ok.injEq] at h
        subst h
        rw [getField_setField_self] at hitems
        injection hitems with hitems
        injection hitems with hitems
        subst hitems
        obtain ⟨it, _, hok⟩ := processItems_mem items0 items2 hpi item hitem
        exact processItem_filled it item hok
  · rename_i w hne heq
    split at h
    · cases h
    · simp only [Except.ok.injEq] at h
      subst h
      rw [heq] at hitems
      injection hitems with hw
      exact (hne items hw).elim
  · rename_i heq
    simp only [Except.ok.injEq] at h
    subst h
    rw [heq] at hitems
    cases hitems

/-- After the discussionBreakdown fill, the property is present and
truthy. -/
theorem fillDiscussionBreakdown_truthy (fields : List (String × Jv)) :
    truthyOpt (getField (fillDiscussionBreakdown fields) "discussionBreakdown")
      = true := by
  unfold fillDiscussionBreakdown
  by_cases hc : truthyOpt (getField fields "discussionBreakdown") = true
  · rw [if_pos hc]
    exact hc
  · rw [if_neg hc, getField_setField_self]
    rfl

/-- The discussionBreakdown fill touches no other property. -/
theorem fillDiscussionBreakdown_pres (fields : List (String × Jv))
    (key : String) (h : "discussionBreakdown" ≠ key) :
    getField (fillDiscussionBreakdown fields) key = getField fields key := by
  unfold fillDiscussionBreakdown
  by_cases hc : truthyOpt (getField fields "discussionBreakdown") = true
  · rw [if_pos hc]
  · rw [if_neg hc, getField_setField_ne _ _ _ _ h]

/-- A successful summarize call means the post-parse processing
succeeded with the same value. -/
theorem summarize_ok_processResult (v r : Jv)
    (h : summarizeTranscript (.parsed v) = .ok r) :
    processResult v = .ok r := by
  simp only [summarizeTranscript] at h
  cases hp : processResult v with
  | ok r' =>
      rw [hp] at h
      simp only [Except.ok.injEq] at h
      subst h
      rfl
  | error e => rw [hp] at h; cases h

/-- A successful post-parse processing run starts from an object and
produces the processed object. -/
theorem processResult_shape (v r : Jv) (h : processResult v = .ok r) :
    ∃ fields f, v = .obj fields ∧ processActionItemsField fields = .ok f ∧
      r = .obj (fillDiscussionBreakdown f) := by
  cases v with
  | obj fields =>
      simp only [processResult] at h
      cases hf : processActionItemsField fields with
      | error e => rw [hf] at h; simp [Except.map] at h
      | ok f =>
          rw [hf] at h
          simp only [Except.map, Except.ok.injEq] at h
          exact ⟨fields, f, rfl, hf, h.symm⟩
  | null => simp [processResult] at h
  | bool b => simp [processResult] at h
  | num n => simp [processResult] at h
  | str s => simp [processResult] at h
  | arr xs => simp [processResult] at h

/-- Every value returned by a successful summarize call has the default
fills applied. -/
theorem defaultsFilled_of_ok (v r : Jv)
    (h : summarizeTranscript (.parsed v) = .ok r) :
    defaultsFilled r = true := by
  obtain ⟨fields, f, hv, hf, hr⟩ :=
    processResult_shape v r (summarize_ok_processResult v r h)
  subst hr
  simp only [defaultsFilled, Bool.and_eq_true]
  refine ⟨fillDiscussionBreakdown_truthy f, ?_⟩
  rw [fillDiscussionBreakdown_pres _ _ (by decide)]
  cases hg : getField f "actionItems" with
  | none => rfl
  | some w =>
      cases w with
      | arr items =>
          show items.all itemFilled = true
          rw [List.all_eq_true]
          intro item hitem
          exact processActionItemsField_filled fields f hf items hg item hitem
      | null => rfl
      | bool b => rfl
      | num n => rfl
      | str ss => rfl
      | obj g => rfl

/-- A string that parses as a date is not the empty string. -/
theorem parseYmd_ne_empty (s : String) (x : Nat × Nat × Nat)
    (h : parseYmd s = some x) : s ≠ "" := by
  intro he
  subst he
  simp [parseYmd] at h

/-! Claim C1: atomicity of the summarize transition. -/

/-- C1 (counterexample): the claim says that on summarization failure the
prior SummaryResult (if any) is left untouched.  In the code,
`handleSummarize` runs `setSummaryResult(null)` before awaiting the gateway,
so after a failure the prior result has been cleared, not preserved: from a
state holding a result, a failing summarize leaves `summaryResult = none`,
which differs from the prior value. -/
theorem summarize_failure_prior_result_not_preserved :
    (handleSummarize priorState (.failure "boom")).1.summaryResult = none ∧
    (handleSummarize priorState (.failure "boom")).1.summaryResult ≠
      priorState.summaryResult :=
  ⟨by decide, by decide⟩

/-- C1 (amended): summarization is atomic in the weaker sense the code
implements: on success the result is replaced wholesale by the new
`SummaryResult`; on failure the result is cleared (not preserved) and the
error message is shown; no partial result is ever surfaced, since the
result cell only ever holds `none` or a complete `SummaryResult`. -/
theorem summarize_atomic_replace_or_clear (s : AppState)
    (outcome : SummarizeOutcome) (h : jsTrim s.transcript ≠ "") :
    (∀ r, outcome = .success r →
       (handleSummarize s outcome).1.summaryResult = some r ∧
       (handleSummarize s outcome).1.error = none) ∧
    (∀ m, outcome = .failure m →
       (handleSummarize s outcome).1.summaryResult = none ∧
       (handleSummarize s outcome).1.error = some m) := by
  unfold handleSummarize
  rw [if_neg h]
  constructor
  · intro r hr
    subst hr
    exact ⟨rfl, rfl⟩
  · intro m hm
    subst hm
    exact ⟨rfl, rfl⟩

/-- Witness for C1's amended theorem at a concrete state and outcome. -/
theorem summarize_atomic_replace_or_clear_witness :
    (handleSummarize
      { transcript := "x", summaryResult := none, isLoading := false,
        error := none, fileName := "", meetingTitle := "" }
      (.failure "err")).1.summaryResult = none := by
  have h := summarize_atomic_replace_or_clear
    { transcript := "x", summaryResult := none, isLoading := false,
      error := none, fileName := "", meetingTitle := "" }
    (.failure "err") (by decide)
  exact (h.2 "err" rfl).1

/-! Claim C2: blank transcript rejected locally. -/

/-- C2: for every transcript consisting only of whitespace (including the
empty transcript), `handleSummarize` never invokes the gateway, always
sets the local empty-input error message, and leaves `isLoading` exactly
as it was, in particular unset when it was unset, and the stored result
untouched. -/
theorem blank_transcript_rejected_locally (s : AppState)
    (outcome : SummarizeOutcome)
    (h : s.transcript.data.all isJsWhitespace) :
    (handleSummarize s outcome).2 = false ∧
    (handleSummarize s outcome).1.error = some emptyTranscriptMessage ∧
    (handleSummarize s outcome).1.isLoading = s.isLoading ∧
    (handleSummarize s outcome).1.summaryResult = s.summaryResult := by
  have ht : jsTrim s.transcript = "" := jsTrim_eq_empty_of_all_whitespace _ h
  unfold handleSummarize
  rw [if_pos ht]
  exact ⟨rfl, rfl, rfl, rfl⟩

/-- Witness for C2 at the all-whitespace transcript `"  \n"`. -/
theorem blank_transcript_rejected_locally_witness :
    (handleSummarize
      { transcript := "  \n", summaryResult := none, isLoading := false,
        error := none, fileName := "", meetingTitle := "" }
      (.success { title := "", shortSummary := "", detailedSummary := [],
                  actionItems := [], discussionBreakdown := [] })).2
      = false := by
  have h := blank_transcript_rejected_locally
    { transcript := "  \n", summaryResult := none, isLoading := false,
      error := none, fileName := "", meetingTitle := "" }
    (.success { title := "", shortSummary := "", detailedSummary := [],
                actionItems := [], discussionBreakdown := [] })
    (by decide)
  exact h.1

/-! Claim C3: error behaviour of summarize. -/

/-- C3 (counterexample): the claim says summarize fails on any schema
violation and never returns a partial result.  The cast
`JSON.parse(jsonText) as SummaryResult` performs no runtime validation:
the empty JSON object, which violates every required-field clause of the
schema, is accepted, and the returned value is exactly that partial
object with only the discussionBreakdown default filled in. -/
theorem summarize_accepts_schema_violating_json :
    summarizeTranscript (.parsed (Jv.obj []))
      = .ok (Jv.obj [("discussionBreakdown", Jv.arr [])]) ∧
    schemaComplete (Jv.obj []) = false :=
  ⟨rfl, rfl⟩

/-- C3 (amended): summarize fails with the summarization error on network
failure or malformed JSON (the `failure` response), and every accepted
value has exactly the default fills applied (truthy discussionBreakdown;
every actionItems array element with truthy priority and present
dueDate); but well-formed JSON is never schema-validated, as the accepted
schema-incomplete object in the last two conjuncts shows. -/
theorem summarize_error_only_on_parse_failure :
    summarizeTranscript ModelResponse.failure
      = .error summarizeFailureMessage ∧
    (∀ v r, summarizeTranscript (.parsed v) = .ok r →
       defaultsFilled r = true) ∧
    summarizeTranscript (.parsed (Jv.obj [("title", Jv.str "t")]))
      = .ok (Jv.obj [("title", Jv.str "t"),
                     ("discussionBreakdown", Jv.arr [])]) ∧
    schemaComplete (Jv.obj [("title", Jv.str "t")]) = false := by
  refine ⟨rfl, ?_, rfl, rfl⟩
  intro v r h
  exact defaultsFilled_of_ok v r h

/-- Witness for the amended C3 theorem at a concrete parsed response. -/
theorem summarize_error_only_on_parse_failure_witness :
    defaultsFilled (Jv.obj [("title", Jv.str "t"),
                            ("discussionBreakdown", Jv.arr [])]) = true :=
  summarize_error_only_on_parse_failure.2.1
    (Jv.obj [("title", Jv.str "t")])
    (Jv.obj [("title", Jv.str "t"), ("discussionBreakdown", Jv.arr [])])
    rfl

/-! Claim C4: shape of accepted action items. -/

/-- C4 (counterexample): the claim says every accepted response has action
items whose dueDate is empty or well-formed YYYY-MM-DD.  The code never
validates the dueDate format: a schema-complete response whose item
carries the due date `soon` is accepted unchanged, and `soon` is neither
empty nor a well-formed date. -/
theorem summarize_accepts_malformed_due_date :
    summarizeTranscript (.parsed vBadDueDate) = .ok vBadDueDate ∧
    schemaComplete vBadDueDate = true ∧
    actionItemsOf vBadDueDate = some [vBadItem] ∧
    itemDueDate vBadItem = some (Jv.str "soon") ∧
    wellFormedYmd "soon" = false ∧
    "soon" ≠ "" :=
  ⟨rfl, rfl, rfl, rfl, rfl, by decide⟩

/-- C4 (amended): every response accepted by summarize whose actionItems
field holds an array has, in every element, a present and truthy priority
(so a string priority is never empty; a falsy or absent one became
`Medium`) and a present dueDate property (an absent one became the empty
string); the dueDate value itself is passed through without any
YYYY-MM-DD validation. -/
theorem accepted_items_have_priority_and_due_date (v r : Jv)
    (h : summarizeTranscript (.parsed v) = .ok r)
    (items : List Jv) (hitems : actionItemsOf r = some items) :
    ∀ item ∈ items, itemFilled item = true := by
  obtain ⟨fields, f, hv, hf, hr⟩ :=
    processResult_shape v r (summarize_ok_processResult v r h)
  subst hr
  simp only [actionItemsOf] at hitems
  rw [fillDiscussionBreakdown_pres _ _ (by decide)] at hitems
  cases hg : getField f "actionItems" with
  | none => rw [hg] at hitems; cases hitems
  | some w =>
      rw [hg] at hitems
      cases w with
      | arr items0 =>
          simp only [Option.some.injEq] at hitems
          subst hitems
          intro item hitem
          exact processActionItemsField_filled fields f hf items0 hg item hitem
      | null => cases hitems
      | bool b => cases hitems
      | num n => cases hitems
      | str ss => cases hitems
      | obj g => cases hitems

/-- Witness for the amended C4 theorem at the concrete response
`vBadDueDate`. -/
theorem accepted_items_have_priority_and_due_date_witness :
    itemFilled vBadItem = true := by
  have h := accepted_items_have_priority_and_due_date
    vBadDueDate vBadDueDate rfl [vBadItem] rfl
  exact h vBadItem (List.mem_singleton.mpr rfl)

/-! Claim C5: filtering action items by priority. -/

/-- C5: filtering by a priority `p` yields exactly the sublist (hence in
the original order) of the full action-item list whose elements have
priority `p`, and filtering by `All` returns the original list
unchanged. -/
theorem filter_by_priority_exact_ordered_sublist
    (items : List ActionItem) (p : Priority) :
    (filteredActionItems items (.only p)).Sublist items ∧
    (∀ i : ActionItem,
       i ∈ filteredActionItems items (.only p) ↔
         i ∈ items ∧ i.priority = p) ∧
    (∀ i : ActionItem,
       (filteredActionItems items (.only p)).count i =
         if i.priority = p then items.count i else 0) ∧
    filteredActionItems items .all = items := by
  refine ⟨List.filter_sublist items, ?_, ?_, rfl⟩
  · intro i
    simp [filteredActionItems, List.mem_filter]
  · intro i
    by_cases h : i.priority = p
    · rw [if_pos h]
      simp only [filteredActionItems]
      exact List.count_filter (by simp [h])
    · rw [if_neg h]
      simp only [filteredActionItems]
      exact List.count_eq_zero_of_not_mem (by simp [List.mem_filter, h])

/-- Witness for C5 at a concrete action-item list. -/
theorem filter_by_priority_exact_ordered_sublist_witness :
    filteredActionItems
      [{ task := "t", assignee := "a", priority := Priority.high,
         dueDate := "" }] PriorityFilter.all
      = [{ task := "t", assignee := "a", priority := Priority.high,
           dueDate := "" }] :=
  (filter_by_priority_exact_ordered_sublist
    [{ task := "t", assignee := "a", priority := Priority.high,
       dueDate := "" }] Priority.high).2.2.2

/-! Claim C6: toggle is a no-op while loading. -/

/-- C6: while the playback machine is in `loading`, any further `toggle`
invocation leaves the state unchanged and performs no synthesis call; in
particular, two rapid invocations from `idle` (the second arriving during
`loading`) perform exactly one synthesis call and the second leaves the
machine exactly where the first put it. -/
theorem toggle_noop_while_loading (s : PlaybackState)
    (h : s.audioState = .loading) :
    toggleSync s = (s, false) ∧
    (∀ s0 : PlaybackState, s0.audioState = .idle →
       (toggleSync s0).2 = true ∧
       toggleSync (toggleSync s0).1 = ((toggleSync s0).1, false)) := by
  constructor
  · unfold toggleSync
    rw [if_neg (by simp [h]), if_pos h]
  · intro s0 h0
    have hsync : toggleSync s0 =
        ({ s0 with audioState := .loading, ttsError := none }, true) := by
      unfold toggleSync
      rw [if_neg (by simp [h0]), if_neg (by simp [h0])]
    refine ⟨by rw [hsync], ?_⟩
    rw [hsync]
    unfold toggleSync
    simp

/-- Witness for C6: from the concrete idle state, the first toggle makes
one synthesis call and the second toggle (arriving in `loading`) is a
no-op. -/
theorem toggle_noop_while_loading_witness :
    toggleSync { audioState := .loading, hasSource := false, ttsError := none }
      = ({ audioState := .loading, hasSource := false, ttsError := none },
         false) ∧
    (toggleSync { audioState := .idle, hasSource := false,
                  ttsError := none }).2 = true := by
  have h := toggle_noop_while_loading
    { audioState := .loading, hasSource := false, ttsError := none } rfl
  have h2 := h.2 ⟨.idle, false, none⟩ rfl
  exact ⟨h.1, h2.1⟩

/-! Claim C7: playback failures surface an error and return to idle. -/

/-- C7: whenever the awaited synthesis/decode pipeline fails, the catch
block stores the user-visible message and moves the machine to `idle`;
and for every outcome, successful or not, the machine is never left in
`loading` once the toggle resolves. -/
theorem playback_failure_returns_to_idle (s : PlaybackState) (m : String) :
    (toggleResolve s (.err m)).audioState = .idle ∧
    (toggleResolve s (.err m)).ttsError = some m ∧
    ∀ o : SynthOutcome, (toggleResolve s o).audioState ≠ .loading := by
  refine ⟨rfl, rfl, ?_⟩
  intro o
  cases o <;> simp [toggleResolve]

/-- Witness for C7 at a concrete loading state and error message. -/
theorem playback_failure_returns_to_idle_witness :
    (toggleResolve
      { audioState := .loading, hasSource := false, ttsError := none }
      (.err "boom")).audioState = AudioState.idle :=
  (playback_failure_returns_to_idle
    { audioState := .loading, hasSource := false, ttsError := none }
    "boom").1

/-! Claim C8: decoded samples lie in the unit range. -/

/-- C8: the decode step interprets the payload as signed 16-bit PCM and
divides each sample by 32768, so for every input byte sequence every
sample written to any channel of the playback buffer lies in the interval
from -1.0 to 1.0. -/
theorem decoded_samples_within_unit_range
    (data : List (Fin 256)) (numChannels : Nat) (channels : List (List ℚ))
    (h : decodeAudioData data numChannels = some channels) :
    ∀ ch ∈ channels, ∀ x ∈ ch, -1 ≤ x ∧ x ≤ 1 := by
  intro ch hch x hx
  simp only [decodeAudioData, Option.map_eq_some'] at h
  obtain ⟨dataInt16, hbytes, rfl⟩ := h
  simp only [List.mem_map] at hch
  obtain ⟨channel, _, rfl⟩ := hch
  simp only [List.mem_map] at hx
  obtain ⟨i, _, rfl⟩ := hx
  have hbound : -32768 ≤ dataInt16.getD (i * numChannels + channel) 0 ∧
      dataInt16.getD (i * numChannels + channel) 0 ≤ 32767 :=
    getD_property (fun v => -32768 ≤ v ∧ v ≤ 32767) dataInt16 0
      (bytesToInt16_bounds data dataInt16 hbytes) (by constructor <;> omega) _
  set v : Int := dataInt16.getD (i * numChannels + channel) 0 with hv
  have hq1 : ((-32768 : Int) : ℚ) ≤ (v : ℚ) := by exact_mod_cast hbound.1
  have hq2 : (v : ℚ) ≤ ((32767 : Int) : ℚ) := by exact_mod_cast hbound.2
  constructor
  · rw [le_div_iff₀ (by norm_num : (0:ℚ) < 32768)]
    push_cast at hq1
    linarith
  · rw [div_le_one (by norm_num : (0:ℚ) < 32768)]
    push_cast at hq2
    linarith

/-- Witness for C8: the two-byte payload `[0x00, 0x80]` decodes (mono) to
the single sample `-1`, which the theorem places in `[-1, 1]`. -/
theorem decoded_samples_within_unit_range_witness :
    -1 ≤ (-1 : ℚ) ∧ (-1 : ℚ) ≤ 1 := by
  have h16 : toInt16 (0 : Fin 256) (128 : Fin 256) = -32768 := by decide
  have hdec : decodeAudioData [(0 : Fin 256), (128 : Fin 256)] 1
      = some [[-1]] := by
    simp [decodeAudioData, bytesToInt16, h16, List.range_succ]
  have h := decoded_samples_within_unit_range
    [(0 : Fin 256), (128 : Fin 256)] 1 [[-1]] hdec [-1]
    (by simp) (-1) (by simp)
  exact h

/-! Claim C9: file upload acceptance. -/

/-- C9: an uploaded file whose MIME type is `text/plain` or whose name
ends in `.vtt` sets the transcript to the file content and the file name,
and clears the previous result and error; any other file is rejected with
the application state unchanged. -/
theorem file_upload_sets_or_preserves_state (f : UploadedFile) (s : AppState) :
    (isSupportedTextFile f = true →
       handleFileUploadApp f s =
         ({ s with transcript := f.content, fileName := f.name,
                   summaryResult := none, error := none }, true)) ∧
    (isSupportedTextFile f = false →
       handleFileUploadApp f s = (s, false)) := by
  constructor
  · intro h
    unfold handleFileUploadApp
    rw [if_pos h]
  · intro h
    unfold handleFileUploadApp
    rw [if_neg (by simp [h])]

/-- Witness for C9: a `.vtt` file is accepted and a `.pdf` file with a
non-text MIME type leaves the state unchanged. -/
theorem file_upload_sets_or_preserves_state_witness :
    handleFileUploadApp
        { ftype := "text/vtt", name := "a.vtt", content := "c" }
        { transcript := "", summaryResult := none, isLoading := false,
          error := none, fileName := "", meetingTitle := "" }
      = ({ transcript := "c", summaryResult := none, isLoading := false,
           error := none, fileName := "a.vtt", meetingTitle := "" }, true) ∧
    handleFileUploadApp
        { ftype := "application/pdf", name := "a.pdf", content := "c" }
        { transcript := "t", summaryResult := none, isLoading := false,
          error := none, fileName := "", meetingTitle := "" }
      = ({ transcript := "t", summaryResult := none, isLoading := false,
           error := none, fileName := "", meetingTitle := "" }, false) := by
  constructor
  · exact (file_upload_sets_or_preserves_state
      { ftype := "text/vtt", name := "a.vtt", content := "c" }
      { transcript := "", summaryResult := none, isLoading := false,
        error := none, fileName := "", meetingTitle := "" }).1 (by decide)
  · exact (file_upload_sets_or_preserves_state
      { ftype := "application/pdf", name := "a.pdf", content := "c" }
      { transcript := "t", summaryResult := none, isLoading := false,
        error := none, fileName := "", meetingTitle := "" }).2 (by decide)

/-! Claim C10: due-date rendering by formatDate. -/

/-- C10 (counterexample): the claim says a parseable dueDate always
renders as the day after the literal date.  The rendered day depends on
the environment timezone: at UTC offset -300 minutes (e.g. US Eastern,
where `new Date("YYYY-MM-DD")` lands on the previous local day) the
added day cancels the shift and the literal date is rendered, while at
offset 0 the day after is rendered. -/
theorem format_date_negative_offset_shows_literal_date :
    formatDate (-300) "2024-03-05" = "March 5, 2024" ∧
    formatDate 0 "2024-03-05" = "March 6, 2024" :=
  ⟨rfl, rfl⟩

/-- C10 (amended): due dates in the rendered view, the exported document
and the notification text are computed by `formatDate`; the empty dueDate
renders as `N/A`; for a parseable YYYY-MM-DD dueDate one day is added
before formatting, so the rendered calendar day is the day after the
literal date in environments at or ahead of UTC, and the literal date
itself in environments behind UTC. -/
theorem format_date_adds_one_day_before_formatting :
    (∀ tz : Int, formatDate tz "" = "N/A") ∧
    (∀ (tz : Int) (y m d : Nat) (s : String),
       parseYmd s = some (y, m, d) → 0 ≤ tz → tz ≤ 840 →
       formatDate tz s = renderCivil (civilFromDays (daysFromCivil y m d + 1))) ∧
    (∀ (tz : Int) (y m d : Nat) (s : String),
       parseYmd s = some (y, m, d) → -840 ≤ tz → tz < 0 →
       formatDate tz s = renderCivil (civilFromDays (daysFromCivil y m d))) ∧
    (∀ (tz : Int) (item : ActionItem),
       createNotificationText tz item =
         "Reminder: The task \"" ++ item.task ++ "\" is assigned to " ++
         item.assignee ++ ". Priority: " ++ priorityText item.priority ++
         ". Due date: " ++ formatDate tz item.dueDate ++ ".") ∧
    (∀ (tz : Int) (item : ActionItem),
       downloadActionItemLine tz item =
         "- [ ] " ++ item.task ++ " (Assignee: " ++ item.assignee ++
         ", Priority: " ++ priorityText item.priority ++ ", Due: " ++
         formatDate tz item.dueDate ++ ")") := by
  refine ⟨fun tz => rfl, ?_, ?_, fun tz item => rfl, fun tz item => rfl⟩
  · intro tz y m d s h h0 h840
    unfold formatDate
    rw [if_neg (parseYmd_ne_empty s (y, m, d) h), h]
    show formatParsedDate tz y m d = _
    unfold formatParsedDate
    congr 2
    set D := daysFromCivil y m d with hD
    omega
  · intro tz y m d s h hlo hhi
    unfold formatDate
    rw [if_neg (parseYmd_ne_empty s (y, m, d) h), h]
    show formatParsedDate tz y m d = _
    unfold formatParsedDate
    congr 2
    set D := daysFromCivil y m d with hD
    omega

/-- Witness for the amended C10 theorem at offset 0 and a concrete date. -/
theorem format_date_adds_one_day_before_formatting_witness :
    formatDate 0 "2024-03-05"
      = renderCivil (civilFromDays (daysFromCivil 2024 3 5 + 1)) :=
  format_date_adds_one_day_before_formatting.2.1 0 2024 3 5 "2024-03-05"
    rfl (by decide) (by decide)

end MeetingSummarizer
